import Mathlib

/-!
Verification of the forta-node core against its specification.

The development shallowly embeds the Go sources:
  * the agent pool worker (Agent.shouldProcessBlock, Agent.processTransactions,
    Agent.processBlocks from the agentpool package),
  * the registry reconciler (RegistryService.detectAgentEvents,
    sendAgentUpdate, makeAgentConfig, handleAgentUpdate and the
    listenToAgentUpdates consumer from the registry package),
  * the alert query API (parseQueryRequest and its helpers from the query
    package).

Machine integers (uint64, int) are modelled as Nat / Int with explicit
range behaviour where the source depends on it.  External collaborators
(the gRPC agent client, the IPFS client, the ABI log unpacker, the error
counter, the message bus) are modelled as function parameters, so theorems
quantify over every possible behaviour of the collaborator.  Channels are
modelled as lists with append for send; a Go panic is modelled by
returning none.
-/

namespace Forta

/-- Embeds config.AgentConfig: the identity and runtime descriptor of one
detection agent.  StartBlock and StopBlock are pointers to uint64 in Go;
nil is modelled as none. -/
structure AgentConfig where
  ID : String
  Image : String
  StartBlock : Option Nat
  StopBlock : Option Nat
  deriving Repr, DecidableEq

/-- Embeds strconv.ParseUint(s, 10, 64): a non-empty all-digit string
parses to its value, clamped to the uint64 maximum on range overflow
(Go returns MaxUint64 together with ErrRange); every other string yields
0 together with an error.  shouldProcessBlock discards the error, so only
the returned number matters here. -/
def goParseUint64 (s : String) : Nat :=
  if s.data ≠ [] ∧ s.data.all Char.isDigit then
    min (s.data.foldl (fun acc c => acc * 10 + (c.toNat - 48)) 0) (2 ^ 64 - 1)
  else 0

/-- Embeds Agent.shouldProcessBlock from the agent pool.  The source
parses the block number, ignores the parse error, and computes
  isAtLeastStartBlock := *StartBlock >= n   (when StartBlock is set)
  isAtMostStopBlock   := *StopBlock <= n    (when StopBlock is set)
returning their conjunction; an unset bound contributes true. -/
def shouldProcessBlock (cfg : AgentConfig) (blockNumber : String) : Bool :=
  let n := goParseUint64 blockNumber
  let isAtLeastStartBlock : Bool :=
    match cfg.StartBlock with
    | some sb => decide (sb ≥ n)
    | none => true
  let isAtMostStopBlock : Bool :=
    match cfg.StopBlock with
    | some sb => decide (sb ≤ n)
    | none => true
  isAtLeastStartBlock && isAtMostStopBlock

/-- Embeds the registry agentUpdate value: three boolean tags plus the
resolved config. -/
structure AgentUpdate where
  IsCreation : Bool
  IsUpdate : Bool
  IsRemoval : Bool
  Config : AgentConfig
  deriving Repr, DecidableEq

/-- Embeds RegistryService.handleAgentUpdate acting on the roster
rs.agentsConfigs.  The unknown-tag branch calls log.Panicf in the source
and is modelled as none.

Creation: the source loop returns early when an entry with the same ID is
found (List.any), otherwise appends.

Update: the source iterates with a value binding
(for _, agent := range rs.agentsConfigs); agent is a copy of the slice
element, so the assignment agent.Image = update.Config.Image mutates only
the copy and the stored roster is left exactly as it was.

Removal: the source rebuilds the slice keeping entries whose ID differs,
which is List.filter. -/
def handleAgentUpdate (roster : List AgentConfig) (u : AgentUpdate) :
    Option (List AgentConfig) :=
  if u.IsCreation then
    some (if roster.any (fun a => a.ID == u.Config.ID) then roster
          else roster ++ [u.Config])
  else if u.IsUpdate then
    some roster
  else if u.IsRemoval then
    some (roster.filter (fun a => !(a.ID == u.Config.ID)))
  else
    none

/-- Embeds the listenToAgentUpdates consumer loop over a drained queue:
each queued update is applied with handleAgentUpdate and the resulting
roster is then published on the bus (SubjectAgentsVersionsLatest).
Returns the final roster together with the list of published roster
snapshots, or none if some update hit the panic branch. -/
def processUpdates (roster : List AgentConfig) :
    List AgentUpdate → Option (List AgentConfig × List (List AgentConfig))
  | [] => some (roster, [])
  | u :: rest =>
    match handleAgentUpdate roster u with
    | none => none
    | some roster2 =>
      match processUpdates roster2 rest with
      | none => none
      | some p => some (p.1, roster2 :: p.2)

/-- Embeds the decoded contracts.AgentRegistryAgentAdded event.  PoolId
and AgentId are 32-byte values rendered as hex strings in the source
(common.Hash.String); both are modelled as the rendered strings. -/
structure AgentRegistryAgentAdded where
  PoolId : String
  AgentId : String
  Ref : String
  deriving Repr, DecidableEq

/-- Embeds the decoded contracts.AgentRegistryAgentUpdated event. -/
structure AgentRegistryAgentUpdated where
  PoolId : String
  AgentId : String
  Ref : String
  deriving Repr, DecidableEq

/-- Embeds the decoded contracts.AgentRegistryAgentRemoved event (no
reference is used for removals). -/
structure AgentRegistryAgentRemoved where
  PoolId : String
  AgentId : String
  deriving Repr, DecidableEq

/-- The zero value of the Go agentUpdate.Config field, before
sendAgentUpdate fills it in. -/
def emptyAgentConfig : AgentConfig :=
  { ID := "", Image := "", StartBlock := none, StopBlock := none }

/-- The agentUpdate literal with only IsCreation set, as built in
detectAgentEvents for an AgentAdded event. -/
def creationUpdate : AgentUpdate :=
  { IsCreation := true, IsUpdate := false, IsRemoval := false, Config := emptyAgentConfig }

/-- The agentUpdate literal with only IsUpdate set, as built in
detectAgentEvents for an AgentUpdated event. -/
def updateUpdate : AgentUpdate :=
  { IsCreation := false, IsUpdate := true, IsRemoval := false, Config := emptyAgentConfig }

/-- The agentUpdate literal with only IsRemoval set, as built in
detectAgentEvents for an AgentRemoved event. -/
def removalUpdate : AgentUpdate :=
  { IsCreation := false, IsUpdate := false, IsRemoval := true, Config := emptyAgentConfig }

/-- Model of the RegistryService environment used by detectAgentEvents.
Logs are opaque tokens (Nat).  The unpack functions model
logUnpacker.UnpackAgentRegistryAgentX composed with transformLog: some
means the log decoded to that event, none means the unpacker returned an
error.  makeConfig abstracts makeAgentConfig (modelled concretely below
for the retry analysis): ok is a resolved config, error is a resolution
failure. -/
structure RegistryService where
  poolID : String
  unpackAgentRegistryAgentAdded : Nat → Option AgentRegistryAgentAdded
  unpackAgentRegistryAgentUpdated : Nat → Option AgentRegistryAgentUpdated
  unpackAgentRegistryAgentRemoved : Nat → Option AgentRegistryAgentRemoved
  makeConfig : String → String → Except String AgentConfig

/-- Embeds RegistryService.sendAgentUpdate over the abstract makeConfig:
on resolution failure the error is returned and nothing is sent; on
success the update, with its Config filled in, is sent on the
rs.agentUpdates channel (modelled as appending to the queue). -/
def RegistryService.sendAgentUpdate (rs : RegistryService) (u : AgentUpdate)
    (agentID ref : String) (queue : List AgentUpdate) :
    Except String (List AgentUpdate) :=
  match rs.makeConfig agentID ref with
  | .error e => .error e
  | .ok cfg => .ok (queue ++ [{ u with Config := cfg }])

/-- Embeds RegistryService.detectAgentEvents: iterate over the receipt
logs; for each log try UnpackAgentRegistryAgentAdded, then AgentUpdated,
then AgentRemoved, taking the first decode that succeeds.  A decoded
event whose PoolId differs from rs.poolID makes the loop continue with
the next log.  A decoded event for this pool makes the function return
rs.sendAgentUpdate immediately.  If no log decodes for this pool the
function returns nil with the queue untouched. -/
def RegistryService.detectAgentEvents (rs : RegistryService) :
    List Nat → List AgentUpdate → Except String (List AgentUpdate)
  | [], queue => .ok queue
  | l :: rest, queue =>
    match rs.unpackAgentRegistryAgentAdded l with
    | some addedEvent =>
      if addedEvent.PoolId ≠ rs.poolID then rs.detectAgentEvents rest queue
      else rs.sendAgentUpdate creationUpdate addedEvent.AgentId addedEvent.Ref queue
    | none =>
      match rs.unpackAgentRegistryAgentUpdated l with
      | some updatedEvent =>
        if updatedEvent.PoolId ≠ rs.poolID then rs.detectAgentEvents rest queue
        else rs.sendAgentUpdate updateUpdate updatedEvent.AgentId updatedEvent.Ref queue
      | none =>
        match rs.unpackAgentRegistryAgentRemoved l with
        | some removedEvent =>
          if removedEvent.PoolId ≠ rs.poolID then rs.detectAgentEvents rest queue
          else rs.sendAgentUpdate removalUpdate removedEvent.AgentId "" queue
        | none => rs.detectAgentEvents rest queue

/-- Decode one log the way detectAgentEvents classifies it: some when the
log decodes (Added, then Updated, then Removed) to an event of this
node's pool, carrying the update tags, the agent id and the reference;
none when the log decodes to another pool's event or to no event. -/
def decodeOwnPoolEvent (rs : RegistryService) (l : Nat) :
    Option (AgentUpdate × String × String) :=
  match rs.unpackAgentRegistryAgentAdded l with
  | some ev =>
    if ev.PoolId ≠ rs.poolID then none
    else some (creationUpdate, ev.AgentId, ev.Ref)
  | none =>
    match rs.unpackAgentRegistryAgentUpdated l with
    | some ev =>
      if ev.PoolId ≠ rs.poolID then none
      else some (updateUpdate, ev.AgentId, ev.Ref)
    | none =>
      match rs.unpackAgentRegistryAgentRemoved l with
      | some ev =>
        if ev.PoolId ≠ rs.poolID then none
        else some (removalUpdate, ev.AgentId, "")
      | none => none

/-- First log of the list that decodeOwnPoolEvent accepts. -/
def firstOwnPoolEvent (rs : RegistryService) :
    List Nat → Option (AgentUpdate × String × String)
  | [] => none
  | l :: rest =>
    match decodeOwnPoolEvent rs l with
    | some x => some x
    | none => firstOwnPoolEvent rs rest

/-- A concrete registry service whose unpacker decodes every log as an
AgentAdded event for this node's own pool and whose resolution always
succeeds. -/
def rsTwoAdds : RegistryService :=
  { poolID := "0xpool",
    unpackAgentRegistryAgentAdded := fun l => some { PoolId := "0xpool", AgentId := toString l, Ref := "" },
    unpackAgentRegistryAgentUpdated := fun _ => none,
    unpackAgentRegistryAgentRemoved := fun _ => none,
    makeConfig := fun agentID _ =>
      Except.ok { ID := agentID, Image := "", StartBlock := none, StopBlock := none } }

/-- Embeds the agentFile manifest decoded from IPFS content: a JSON
document whose manifest object carries an imageReference string. -/
structure AgentFile where
  imageReference : String
  deriving Repr, DecidableEq

/-- Embeds the retry loop of makeAgentConfig
(for i := 0; i < 10; i++ with break on the first nil error).  fetch j is
the outcome of the j-th call to ipfsClient.Cat (none = error).  Arguments
are the next attempt index and the remaining attempt budget; the result
pairs the content of the first successful attempt (or none) with the
number of attempts actually made. -/
def ipfsCatLoop (fetch : Nat → Option String) : Nat → Nat → Option String × Nat
  | _, 0 => (none, 0)
  | i, rem + 1 =>
    match fetch i with
    | some r => (some r, 1)
    | none =>
      let p := ipfsCatLoop fetch (i + 1) rem
      (p.1, p.2 + 1)

/-- Embeds RegistryService.makeAgentConfig, parameterized by the external
collaborators: fetch models ipfsClient.Cat (per-attempt outcomes),
decodeAgentFile models the JSON decoding of the fetched body, and
validateImageRef models utils.ValidateImageRef with the configured
container registry baked in.  Results pair the Go (config, error) outcome
with the number of fetch attempts made.  An empty reference yields a
config with only the ID set and performs no fetch.  A failed validation
only logs a warning in the source; the config still proceeds with the
value returned by the validator. -/
def makeAgentConfig (fetch : Nat → Option String)
    (decodeAgentFile : String → Option AgentFile)
    (validateImageRef : String → String × Bool)
    (agentID ref : String) : Except String AgentConfig × Nat :=
  if ref.length = 0 then
    (.ok { ID := agentID, Image := "", StartBlock := none, StopBlock := none }, 0)
  else
    match ipfsCatLoop fetch 0 10 with
    | (none, n) => (.error "failed to load the agent file using ipfs ref", n)
    | (some content, n) =>
      match decodeAgentFile content with
      | none => (.error "failed to decode the agent file", n)
      | some agentData =>
        let v := validateImageRef agentData.imageReference
        (.ok { ID := agentID, Image := v.1, StartBlock := none, StopBlock := none }, n)

/-- Embeds RegistryService.sendAgentUpdate wired to the concrete
makeAgentConfig: a resolution failure returns the error without sending;
success fills in the update's Config and sends it on the channel
(appends to the queue).  The attempt count is dropped here; the error
outcome and the resulting queue are returned. -/
def sendAgentUpdate (fetch : Nat → Option String)
    (decodeAgentFile : String → Option AgentFile)
    (validateImageRef : String → String × Bool)
    (u : AgentUpdate) (agentID ref : String) (queue : List AgentUpdate) :
    Except String Unit × List AgentUpdate :=
  match makeAgentConfig fetch decodeAgentFile validateImageRef agentID ref with
  | (.error e, _) => (.error e, queue)
  | (.ok cfg, _) => (.ok (), queue ++ [{ u with Config := cfg }])

/-- Embeds the protocol evaluate response as seen by the pipelines: only
the Metadata map matters here.  none models a nil Go map (the zero value
when the agent reply omits it), some models an allocated map as an
association list. -/
structure EvaluateResponse where
  Metadata : Option (List (String × String))
  deriving Repr, DecidableEq

/-- Embeds a Go map assignment m[k] = v: assigning through a nil map
panics (none); otherwise the key is bound to v, replacing any previous
binding. -/
def mapAssign (m : Option (List (String × String))) (k v : String) :
    Option (List (String × String)) :=
  match m with
  | none => none
  | some entries => some ((k, v) :: entries.filter (fun e => !(e.1 == k)))

/-- Embeds scanner.TxResult: the originating config, the request and the
tagged response.  Field names are lowercased; requests are opaque tokens
(Nat). -/
structure TxResult where
  agentConfig : AgentConfig
  request : Nat
  response : EvaluateResponse
  deriving Repr, DecidableEq

/-- Embeds scanner.BlockResult. -/
structure BlockResult where
  agentConfig : AgentConfig
  request : Nat
  response : EvaluateResponse
  deriving Repr, DecidableEq

/-- Embeds Agent.processTransactions over a drained request queue.
client models agent.client.EvaluateTx (ok = reply, error = call error
text); imageHash models agent.config.ImageHash() (the config package is
outside this repository slice, so the tag value is a parameter);
tooManyErrs models errCounter.TooManyErrs as a transition on an abstract
counter state (the errorCounter implementation is also outside this
slice).  On success the response metadata is tagged via mapAssign and the
result forwarded; a nil metadata map panics, modelled as none for the
whole run.  On error, if the counter trips, the pipeline stops (the
stop-agent message is published and no further request is dequeued). -/
def processTransactions (cfg : AgentConfig) (imageHash : String)
    (client : Nat → Except String EvaluateResponse)
    (tooManyErrs : Nat → String → Bool × Nat) :
    Nat → List Nat → Option (List TxResult)
  | _, [] => some []
  | counter, request :: rest =>
    match client request with
    | .ok resp =>
      match mapAssign resp.Metadata "imageHash" imageHash with
      | none => none
      | some md =>
        match processTransactions cfg imageHash client tooManyErrs counter rest with
        | none => none
        | some results =>
          some ({ agentConfig := cfg, request := request,
                  response := { Metadata := some md } } :: results)
    | .error e =>
      let p := tooManyErrs counter e
      if p.1 then some []
      else processTransactions cfg imageHash client tooManyErrs p.2 rest

/-- Embeds Agent.processBlocks; the source is symmetric to
processTransactions with the block client and BlockResult. -/
def processBlocks (cfg : AgentConfig) (imageHash : String)
    (client : Nat → Except String EvaluateResponse)
    (tooManyErrs : Nat → String → Bool × Nat) :
    Nat → List Nat → Option (List BlockResult)
  | _, [] => some []
  | counter, request :: rest =>
    match client request with
    | .ok resp =>
      match mapAssign resp.Metadata "imageHash" imageHash with
      | none => none
      | some md =>
        match processBlocks cfg imageHash client tooManyErrs counter rest with
        | none => none
        | some results =>
          some ({ agentConfig := cfg, request := request,
                  response := { Metadata := some md } } :: results)
    | .error e =>
      let p := tooManyErrs counter e
      if p.1 then some []
      else processBlocks cfg imageHash client tooManyErrs p.2 rest

/-- Embeds the store.FilterCriterion operator: Equals or NotEquals. -/
inductive FilterOp where
  | Equals
  | NotEquals
  deriving Repr, DecidableEq

/-- Embeds store.FilterCriterion as built by parseFilterCriteria. -/
structure FilterCriterion where
  Operator : FilterOp
  Field : String
  Values : List String
  deriving Repr, DecidableEq

/-- Embeds the reservedParams list of the query package. -/
def reservedParams : List String :=
  ["startDate", "endDate", "limit", "pageToken", "sort"]

/-- Embeds isReservedParam: linear scan of reservedParams. -/
def isReservedParam (param : String) : Bool :=
  reservedParams.any (fun nfp => nfp == param)

/-- The literal prefixNot constant of the query package. -/
def notMarker : String := "\x7bnot\x7d"

/-- Embeds strconv.Atoi on a 64-bit platform: an optional single sign
followed by one or more digits, rejecting anything else and rejecting
values outside the int64 range (both produce a non-nil error, which the
callers here treat uniformly, so the parsed value on error is not
modelled). -/
def goAtoi (s : String) : Option Int :=
  let p : Int × List Char :=
    match s.data with
    | c :: rest =>
      if c = Char.ofNat 45 then (-1, rest)
      else if c = Char.ofNat 43 then (1, rest)
      else (1, s.data)
    | [] => (1, [])
  if p.2 ≠ [] ∧ p.2.all Char.isDigit then
    let v : Int := p.1 * (p.2.foldl (fun acc c => acc * 10 + (c.toNat - 48)) 0 : Nat)
    if -(2 ^ 63) ≤ v ∧ v ≤ 2 ^ 63 - 1 then some v else none
  else none

/-- Embeds getDateParam: an absent parameter yields the supplied default
instant; otherwise the value must parse as an integer of at least 1e12
(milliseconds), converted to nanoseconds exactly as
time.Unix(0, ms * int64(time.Millisecond)).  Instants are modelled as Int
nanoseconds. -/
def getDateParam (name dtStr : String) (defaultTime : Int) : Except String Int :=
  if dtStr = "" then .ok defaultTime
  else
    match goAtoi dtStr with
    | none => .error (name ++ " must be in milliseconds format")
    | some ms =>
      if ms < 10 ^ 12 then .error (name ++ " must be in milliseconds format")
      else .ok (ms * 1000000)

/-- Embeds store.AlertQueryRequest as filled in by parseQueryRequest. -/
structure AlertQueryRequest where
  StartTime : Int
  EndTime : Int
  PageToken : String
  Limit : Int
  Criteria : List FilterCriterion
  Reverse : Bool
  deriving Repr, DecidableEq

/-- Embeds defaultSinceDate (-24 * 7 * time.Hour) in nanoseconds. -/
def defaultSinceDate : Int := -(24 * 7 * 3600 * 1000000000)

/-- Embeds defaultPageLimit. -/
def defaultPageLimit : Int := 100

/-- Embeds maxPageLimit. -/
def maxPageLimit : Int := 1000

/-- Model of the incoming HTTP request query string.  The five reserved
parameters are modelled as direct fields holding the first value given
for them, with "" for an absent parameter, exactly what
r.URL.Query().Get returns; extra holds the remaining parameters in the
iteration order of the Go map, each with its full value list. -/
structure HttpQuery where
  startDate : String
  endDate : String
  limit : String
  pageToken : String
  sort : String
  extra : List (String × List String)
  deriving Repr, DecidableEq

/-- Embeds parseFilterCriteria over the non-reserved parameters: a
multi-valued parameter is rejected; the single value is negated when it
carries the notMarker, and split on commas into an OR-list.
The value list of a present key is never empty in a parsed URL query, so
headD only names the unreachable case. -/
def parseFilterCriteria : List (String × List String) → Except String (List FilterCriterion)
  | [] => .ok []
  | (k, v) :: rest =>
    if isReservedParam k then parseFilterCriteria rest
    else if v.length > 1 then .error (k ++ " cannot be array")
    else
      let val := v.headD ""
      let p : FilterOp × String :=
        if val.startsWith notMarker then (FilterOp.NotEquals, val.drop notMarker.length)
        else (FilterOp.Equals, val)
      match parseFilterCriteria rest with
      | .error e => .error e
      | .ok filters =>
        .ok ({ Operator := p.1, Field := k, Values := p.2.splitOn "," } :: filters)

/-- Embeds parseQueryRequest: parse both dates (replacing their errors
with the RFC3339 messages the source uses), the filter criteria and the
sort direction; build the request with the default page limit of 100;
then, when a limit parameter is present, it must parse as an integer of
at most maxPageLimit and overrides the default. -/
def parseQueryRequest (now : Int) (q : HttpQuery) : Except String AlertQueryRequest :=
  match getDateParam "startDate" q.startDate (now + defaultSinceDate) with
  | .error _ => .error "startDate must be in RFC3339 format"
  | .ok startDate =>
    match getDateParam "endDate" q.endDate now with
    | .error _ => .error "endDate must be in RFC3339 format"
    | .ok endDate =>
      match parseFilterCriteria q.extra with
      | .error e => .error e
      | .ok filters =>
        if q.sort ≠ "asc" ∧ q.sort ≠ "desc" ∧ q.sort ≠ "" then
          .error "sort must be either asc or desc (default asc)"
        else
          let request : AlertQueryRequest :=
            { StartTime := startDate, EndTime := endDate,
              PageToken := q.pageToken, Limit := defaultPageLimit,
              Criteria := filters, Reverse := q.sort == "desc" }
          if q.limit = "" then .ok request
          else
            match goAtoi q.limit with
            | none => .error "limit must be an integer"
            | some l =>
              if l > maxPageLimit then .error "limit cannot exceed 1000"
              else .ok { request with Limit := l }

/-- Helper: under the one-entry-per-ID invariant, filtering out a present
ID removes exactly one element. -/
theorem filter_id_length (roster : List AgentConfig) (x : String)
    (hnd : (roster.map AgentConfig.ID).Nodup)
    (hmem : ∃ a ∈ roster, a.ID = x) :
    (roster.filter (fun a => !(a.ID == x))).length + 1 = roster.length := by
  induction roster with
  | nil => simp at hmem
  | cons b rest ih =>
    simp only [List.map_cons, List.nodup_cons] at hnd
    by_cases hb : b.ID = x
    · have hrest : rest.filter (fun a => !(a.ID == x)) = rest := by
        apply List.filter_eq_self.mpr
        intro a ha
        simp only [Bool.not_eq_eq_eq_not, Bool.not_true, beq_eq_false_iff_ne, ne_eq]
        intro hax
        exact hnd.1 (by rw [← hb] at hax; exact hax ▸ List.mem_map_of_mem AgentConfig.ID ha)
      simp [List.filter_cons, hb, hrest]
    · have hmem2 : ∃ a ∈ rest, a.ID = x := by
        obtain ⟨a, ha, hax⟩ := hmem
        rcases List.mem_cons.mp ha with rfl | hmem3
        · exact absurd hax hb
        · exact ⟨a, hmem3, hax⟩
      have hlen := ih hnd.2 hmem2
      have hpb : (!(b.ID == x)) = true := by simp [hb]
      simp only [List.filter_cons, hpb, if_true, List.length_cons]
      omega

/-- Claim C4: for every agent config and every height string parsing to
h, shouldProcessBlock returns true exactly when StartBlock is nil or
h ≤ StartBlock, and StopBlock is nil or StopBlock ≤ h.  This is the
literal comparison behaviour of the source (see the inverted-naming note
for C3). -/
theorem shouldProcessBlock_true_iff (cfg : AgentConfig) (s : String) (h : Nat)
    (hp : goParseUint64 s = h) :
    shouldProcessBlock cfg s = true ↔
      ((cfg.StartBlock = none ∨ ∃ sb, cfg.StartBlock = some sb ∧ h ≤ sb) ∧
       (cfg.StopBlock = none ∨ ∃ sb, cfg.StopBlock = some sb ∧ sb ≤ h)) := by
  subst hp
  rcases cfg with ⟨id, img, sb, tb⟩
  cases sb <;> cases tb <;> simp [shouldProcessBlock]

/-- Witness for C4 at a concrete input: StartBlock 5, StopBlock unset,
height "3". -/
theorem shouldProcessBlock_true_iff_witness :
    shouldProcessBlock ⟨"0xa", "img", some 5, none⟩ "3" = true :=
  (shouldProcessBlock_true_iff ⟨"0xa", "img", some 5, none⟩ "3" 3 (by decide)).mpr
    ⟨Or.inr ⟨5, rfl, by decide⟩, Or.inl rfl⟩

/-- Counterexample for C3 as stated: with StartBlock=100 and
StopBlock=200 the claim expects height 150 to pass, but the source
requires height ≤ 100 AND 200 ≤ height, so 150 fails. -/
theorem shouldProcessBlock_cex_150 :
    shouldProcessBlock ⟨"", "", some 100, some 200⟩ "150" = false := by decide

/-- Claim C3 (amended): with StartBlock=100 and StopBlock=200 the source
comparisons (height ≤ StartBlock and StopBlock ≤ height) are jointly
unsatisfiable, so shouldProcessBlock returns false for every height
string, 99, 100-200 and 201 included; with both bounds nil every height
passes. -/
theorem shouldProcessBlock_100_200_never_passes :
    (∀ s, shouldProcessBlock ⟨"", "", some 100, some 200⟩ s = false) ∧
    (∀ s, shouldProcessBlock ⟨"", "", none, none⟩ s = true) := by
  constructor
  · intro s
    simp only [shouldProcessBlock]
    simp only [Bool.and_eq_false_iff, decide_eq_false_iff_not, ge_iff_le, not_le]
    omega
  · intro s; rfl

/-- Claim C10: a height string that is not a non-empty digit string
parses to 0 with its error discarded, so the start bound always passes
(also when StartBlock is set) and shouldProcessBlock returns true exactly
when StopBlock is nil or *StopBlock = 0. -/
theorem shouldProcessBlock_nonnumeric (cfg : AgentConfig) (s : String)
    (h : ¬(s.data ≠ [] ∧ s.data.all Char.isDigit = true)) :
    goParseUint64 s = 0 ∧
    (∀ sb, cfg.StartBlock = some sb → sb ≥ goParseUint64 s) ∧
    (shouldProcessBlock cfg s = true ↔
      (cfg.StopBlock = none ∨ cfg.StopBlock = some 0)) := by
  have h0 : goParseUint64 s = 0 := by
    unfold goParseUint64
    rw [if_neg]
    simpa using h
  refine ⟨h0, fun sb _ => by omega, ?_⟩
  rcases cfg with ⟨id, img, sb, tb⟩
  cases sb <;> cases tb <;> simp [shouldProcessBlock, h0]

/-- Witness for C10 at the non-numeric height "12x" with StartBlock 5
and StopBlock 0. -/
theorem shouldProcessBlock_nonnumeric_witness :
    goParseUint64 "12x" = 0 ∧
    (∀ sb, (⟨"0xa", "i", some 5, some 0⟩ : AgentConfig).StartBlock = some sb →
       sb ≥ goParseUint64 "12x") ∧
    (shouldProcessBlock ⟨"0xa", "i", some 5, some 0⟩ "12x" = true ↔
      ((⟨"0xa", "i", some 5, some 0⟩ : AgentConfig).StopBlock = none ∨
       (⟨"0xa", "i", some 5, some 0⟩ : AgentConfig).StopBlock = some 0)) :=
  shouldProcessBlock_nonnumeric ⟨"0xa", "i", some 5, some 0⟩ "12x" (by decide)

/-- Claim C1: handleAgentUpdate evaluated at an update event whose ID is
present in the roster.  The claim (and the spec) say the entry Image is
overwritten to "img2"; the source loop binds the entry by value, so the
roster is returned with Image still "img1". -/
theorem handleAgentUpdate_update_is_noop :
    handleAgentUpdate [⟨"0xaa", "img1", none, none⟩]
      ⟨false, true, false, ⟨"0xaa", "img2", none, none⟩⟩
      = some [⟨"0xaa", "img1", none, none⟩] := by rfl

/-- Claim C5: a creation update whose ID is already present leaves the
roster unchanged (same list, hence same length, entries and Image
values); when the ID is absent the config is appended. -/
theorem handleAgentUpdate_creation_idempotent (roster : List AgentConfig)
    (u : AgentUpdate) (hc : u.IsCreation = true) :
    ((∃ a ∈ roster, a.ID = u.Config.ID) → handleAgentUpdate roster u = some roster) ∧
    (¬(∃ a ∈ roster, a.ID = u.Config.ID) →
       handleAgentUpdate roster u = some (roster ++ [u.Config])) := by
  constructor <;> intro h
  · have hany : roster.any (fun a => a.ID == u.Config.ID) = true := by
      simp only [List.any_eq_true, beq_iff_eq]
      exact h
    simp [handleAgentUpdate, hc, hany]
  · have hany : roster.any (fun a => a.ID == u.Config.ID) = false := by
      simp only [List.any_eq_false, beq_iff_eq]
      intro a ha hax
      exact h ⟨a, ha, hax⟩
    simp [handleAgentUpdate, hc, hany]

/-- Witness for C5: a duplicate creation for the present ID 0xaa is a
no-op. -/
theorem handleAgentUpdate_creation_idempotent_witness :
    handleAgentUpdate [⟨"0xaa", "i", none, none⟩]
      ⟨true, false, false, ⟨"0xaa", "j", none, none⟩⟩
      = some [⟨"0xaa", "i", none, none⟩] :=
  (handleAgentUpdate_creation_idempotent [⟨"0xaa", "i", none, none⟩]
      ⟨true, false, false, ⟨"0xaa", "j", none, none⟩⟩ rfl).1
    ⟨⟨"0xaa", "i", none, none⟩, by simp, rfl⟩

/-- Claim C6: under the at-most-one-entry-per-ID invariant, a removal
update for a present ID shrinks the roster by exactly one and leaves no
entry with that ID; a removal for an absent ID leaves the roster
unchanged. -/
theorem handleAgentUpdate_removal_exact (roster : List AgentConfig)
    (u : AgentUpdate) (hnd : (roster.map AgentConfig.ID).Nodup)
    (hc : u.IsCreation = false) (hu : u.IsUpdate = false) (hr : u.IsRemoval = true) :
    ((∃ a ∈ roster, a.ID = u.Config.ID) →
       ∃ r2, handleAgentUpdate roster u = some r2 ∧
         r2.length + 1 = roster.length ∧ ∀ a ∈ r2, a.ID ≠ u.Config.ID) ∧
    (¬(∃ a ∈ roster, a.ID = u.Config.ID) → handleAgentUpdate roster u = some roster) := by
  constructor <;> intro h
  · refine ⟨roster.filter (fun a => !(a.ID == u.Config.ID)), ?_, ?_, ?_⟩
    · simp [handleAgentUpdate, hc, hu, hr]
    · exact filter_id_length roster u.Config.ID hnd h
    · intro a ha
      have := List.of_mem_filter ha
      simpa using this
  · have hall : roster.filter (fun a => !(a.ID == u.Config.ID)) = roster := by
      apply List.filter_eq_self.mpr
      intro a ha
      simp only [Bool.not_eq_eq_eq_not, Bool.not_true, beq_eq_false_iff_ne, ne_eq]
      intro hax
      exact h ⟨a, ha, hax⟩
    simp [handleAgentUpdate, hc, hu, hr, hall]

/-- Witness for C6: removing 0xaa from a two-entry roster leaves one
entry and no entry named 0xaa. -/
theorem handleAgentUpdate_removal_exact_witness :
    ∃ r2, handleAgentUpdate
        [⟨"0xaa", "i", none, none⟩, ⟨"0xbb", "j", none, none⟩]
        ⟨false, false, true, ⟨"0xaa", "", none, none⟩⟩ = some r2 ∧
      r2.length + 1 = 2 ∧ ∀ a ∈ r2, a.ID ≠ "0xaa" :=
  (handleAgentUpdate_removal_exact
      [⟨"0xaa", "i", none, none⟩, ⟨"0xbb", "j", none, none⟩]
      ⟨false, false, true, ⟨"0xaa", "", none, none⟩⟩
      (by decide) rfl rfl rfl).1
    ⟨⟨"0xaa", "i", none, none⟩, by simp, rfl⟩

/-- Counterexample for C2 as stated: both logs of the transaction decode
to own-pool AgentAdded events, yet detectAgentEvents queues exactly one
update (for the first log) and returns, instead of one update per
own-pool log. -/
theorem detectAgentEvents_cex_two_own_pool_logs :
    (decodeOwnPoolEvent rsTwoAdds 0).isSome = true ∧
    (decodeOwnPoolEvent rsTwoAdds 1).isSome = true ∧
    rsTwoAdds.detectAgentEvents [0, 1] []
      = .ok [{ IsCreation := true, IsUpdate := false, IsRemoval := false,
               Config := ⟨"0", "", none, none⟩ }] ∧
    ([{ IsCreation := true, IsUpdate := false, IsRemoval := false,
        Config := (⟨"0", "", none, none⟩ : AgentConfig) }] : List AgentUpdate).length = 1 :=
  ⟨rfl, rfl, rfl, rfl⟩

/-- Claim C2 (amended): detectAgentEvents scans the logs in order,
decoding each against AgentAdded, AgentUpdated, AgentRemoved in that
order and stopping at the first match per log; logs that decode to
another pool's event or to no event are skipped.  At the FIRST log that
decodes to an own-pool event it queues exactly one update (when the
reference resolves) and returns immediately, so at most one update is
queued per transaction; when no log decodes to an own-pool event the
queue is untouched. -/
theorem detectAgentEvents_stops_at_first_own_pool (rs : RegistryService)
    (logs : List Nat) (queue : List AgentUpdate) :
    rs.detectAgentEvents logs queue =
      match firstOwnPoolEvent rs logs with
      | none => .ok queue
      | some (u, agentID, ref) => rs.sendAgentUpdate u agentID ref queue := by
  induction logs with
  | nil => rfl
  | cons l rest ih =>
    simp only [RegistryService.detectAgentEvents, firstOwnPoolEvent, decodeOwnPoolEvent]
    cases h1 : rs.unpackAgentRegistryAgentAdded l with
    | some ev =>
      by_cases hp : ev.PoolId ≠ rs.poolID
      · simp only [if_pos hp, ih]
      · simp only [if_neg hp]
    | none =>
      cases h2 : rs.unpackAgentRegistryAgentUpdated l with
      | some ev =>
        by_cases hp : ev.PoolId ≠ rs.poolID
        · simp only [if_pos hp, ih]
        · simp only [if_neg hp]
      | none =>
        cases h3 : rs.unpackAgentRegistryAgentRemoved l with
        | some ev =>
          by_cases hp : ev.PoolId ≠ rs.poolID
          · simp only [if_pos hp, ih]
          · simp only [if_neg hp]
        | none => simp only [ih]

/-- Helper: the retry loop never makes more attempts than its budget. -/
theorem ipfsCatLoop_attempts_le (fetch : Nat → Option String) (i rem : Nat) :
    (ipfsCatLoop fetch i rem).2 ≤ rem := by
  induction rem generalizing i with
  | zero => simp [ipfsCatLoop]
  | succ r ih =>
    simp only [ipfsCatLoop]
    cases fetch i with
    | some v => simp
    | none => simpa using Nat.succ_le_succ (ih (i + 1))

/-- Helper: when every attempt in the budget fails, the loop reports no
content after exhausting the whole budget. -/
theorem ipfsCatLoop_all_fail (fetch : Nat → Option String) (rem : Nat) :
    ∀ i, (∀ j, j < rem → fetch (i + j) = none) →
      ipfsCatLoop fetch i rem = (none, rem) := by
  induction rem with
  | zero => intro i _; rfl
  | succ r ih =>
    intro i h
    have h0 : fetch i = none := by simpa using h 0 (Nat.succ_pos r)
    have hrec := ih (i + 1) (fun j hj => by
      rw [show i + 1 + j = i + (j + 1) by omega]
      exact h (j + 1) (by omega))
    simp only [ipfsCatLoop, h0, hrec]

/-- Helper: the loop stops at the first successful attempt, having made
exactly one more attempt than the number of failures before it. -/
theorem ipfsCatLoop_first_success (fetch : Nat → Option String) (k : Nat) :
    ∀ (i rem : Nat) (r : String), k < rem → fetch (i + k) = some r →
      (∀ j, j < k → fetch (i + j) = none) →
      ipfsCatLoop fetch i rem = (some r, k + 1) := by
  induction k with
  | zero =>
    intro i rem r hk hs hmin
    cases rem with
    | zero => omega
    | succ rr =>
      rw [Nat.add_zero] at hs
      simp only [ipfsCatLoop, hs]
  | succ k ih =>
    intro i rem r hk hs hmin
    cases rem with
    | zero => omega
    | succ rr =>
      have h0 : fetch i = none := by simpa using hmin 0 (Nat.succ_pos k)
      have hrec := ih (i + 1) rr r (by omega)
        (by rw [show i + 1 + k = i + (k + 1) by omega]; exact hs)
        (fun j hj => by
          rw [show i + 1 + j = i + (j + 1) by omega]
          exact hmin (j + 1) (by omega))
      simp only [ipfsCatLoop, h0, hrec]

/-- Claim C7: for a non-empty reference, makeAgentConfig makes at most 10
fetch attempts and stops early at the first success; when all 10 attempts
fail it returns a fetch error after exactly 10 attempts, sendAgentUpdate
propagates the error without queueing an update, and consequently the
reconciler applies nothing for this event: the roster is unchanged and no
roster broadcast is published. -/
theorem makeAgentConfig_retry_policy
    (fetch : Nat → Option String) (decodeAgentFile : String → Option AgentFile)
    (validateImageRef : String → String × Bool) (agentID ref : String)
    (u : AgentUpdate) (queue : List AgentUpdate) (roster : List AgentConfig)
    (href : ref.length ≠ 0) :
    (makeAgentConfig fetch decodeAgentFile validateImageRef agentID ref).2 ≤ 10 ∧
    (∀ k r, k < 10 → fetch k = some r → (∀ j, j < k → fetch j = none) →
       (makeAgentConfig fetch decodeAgentFile validateImageRef agentID ref).2 = k + 1) ∧
    ((∀ i, i < 10 → fetch i = none) →
       (∃ e, makeAgentConfig fetch decodeAgentFile validateImageRef agentID ref
           = (.error e, 10)) ∧
       (∃ e, sendAgentUpdate fetch decodeAgentFile validateImageRef u agentID ref queue
           = (.error e, queue)) ∧
       processUpdates roster [] = some (roster, [])) := by
  have hsnd : (makeAgentConfig fetch decodeAgentFile validateImageRef agentID ref).2
      = (ipfsCatLoop fetch 0 10).2 := by
    rcases hloop : ipfsCatLoop fetch 0 10 with ⟨res, n⟩
    cases res with
    | none => simp [makeAgentConfig, href, hloop]
    | some content =>
      cases hdec : decodeAgentFile content with
      | none => simp [makeAgentConfig, href, hloop, hdec]
      | some agentData => simp [makeAgentConfig, href, hloop, hdec]
  refine ⟨?_, ?_, ?_⟩
  · rw [hsnd]
    exact ipfsCatLoop_attempts_le fetch 0 10
  · intro k r hk hs hmin
    rw [hsnd, ipfsCatLoop_first_success fetch k 0 10 r hk (by simpa using hs)
      (fun j hj => by simpa using hmin j hj)]
  · intro hfail
    have hloop : ipfsCatLoop fetch 0 10 = (none, 10) :=
      ipfsCatLoop_all_fail fetch 10 0 (fun j hj => by simpa using hfail j hj)
    have hmk : makeAgentConfig fetch decodeAgentFile validateImageRef agentID ref
        = (.error "failed to load the agent file using ipfs ref", 10) := by
      simp [makeAgentConfig, href, hloop]
    refine ⟨⟨_, hmk⟩, ⟨"failed to load the agent file using ipfs ref", ?_⟩, rfl⟩
    simp [sendAgentUpdate, hmk]

/-- Witness for C7: with a fetcher that always fails, the fetch error is
reported after 10 attempts, the queue stays empty and the empty roster is
republished zero times. -/
theorem makeAgentConfig_retry_policy_witness :
    (∃ e, makeAgentConfig (fun _ => none) (fun _ => none) (fun s => (s, true))
        "0xid" "QmRef" = (.error e, 10)) ∧
    (∃ e, sendAgentUpdate (fun _ => none) (fun _ => none) (fun s => (s, true))
        ⟨true, false, false, ⟨"", "", none, none⟩⟩ "0xid" "QmRef" []
        = (.error e, [])) ∧
    processUpdates ([] : List AgentConfig) [] = some ([], []) :=
  (makeAgentConfig_retry_policy (fun _ => none) (fun _ => none) (fun s => (s, true))
      "0xid" "QmRef" ⟨true, false, false, ⟨"", "", none, none⟩⟩ [] [] (by decide)).2.2
    (fun i _ => rfl)

/-- Helper: the transaction pipeline completes when every successful
client reply carries a non-nil metadata map. -/
theorem processTransactions_isSome (cfg : AgentConfig) (imageHash : String)
    (client : Nat → Except String EvaluateResponse)
    (tooManyErrs : Nat → String → Bool × Nat)
    (hgood : ∀ r resp, client r = .ok resp → resp.Metadata ≠ none) :
    ∀ (requests : List Nat) (counter : Nat),
      (processTransactions cfg imageHash client tooManyErrs counter requests).isSome = true := by
  intro requests
  induction requests with
  | nil => intro counter; rfl
  | cons r rest ih =>
    intro counter
    simp only [processTransactions]
    cases hc : client r with
    | ok resp =>
      cases hm : resp.Metadata with
      | none => exact absurd hm (hgood r resp hc)
      | some entries =>
        simp only [hm, mapAssign]
        cases hrec : processTransactions cfg imageHash client tooManyErrs counter rest with
        | none => exact absurd (ih counter) (by simp [hrec])
        | some results => simp
    | error e =>
      by_cases hp : (tooManyErrs counter e).1
      · simp [hp]
      · simp only [hp, if_false, Bool.false_eq_true]
        exact ih (tooManyErrs counter e).2

/-- Helper: the block pipeline completes when every successful client
reply carries a non-nil metadata map. -/
theorem processBlocks_isSome (cfg : AgentConfig) (imageHash : String)
    (client : Nat → Except String EvaluateResponse)
    (tooManyErrs : Nat → String → Bool × Nat)
    (hgood : ∀ r resp, client r = .ok resp → resp.Metadata ≠ none) :
    ∀ (requests : List Nat) (counter : Nat),
      (processBlocks cfg imageHash client tooManyErrs counter requests).isSome = true := by
  intro requests
  induction requests with
  | nil => intro counter; rfl
  | cons r rest ih =>
    intro counter
    simp only [processBlocks]
    cases hc : client r with
    | ok resp =>
      cases hm : resp.Metadata with
      | none => exact absurd hm (hgood r resp hc)
      | some entries =>
        simp only [hm, mapAssign]
        cases hrec : processBlocks cfg imageHash client tooManyErrs counter rest with
        | none => exact absurd (ih counter) (by simp [hrec])
        | some results => simp
    | error e =>
      by_cases hp : (tooManyErrs counter e).1
      · simp [hp]
      · simp only [hp, if_false, Bool.false_eq_true]
        exact ih (tooManyErrs counter e).2

/-- Claim C9: the pipelines panic on the imageHash tagging exactly when a
successful evaluator reply carries a nil metadata map: under the
precondition that every successful reply has an allocated map, both
processTransactions and processBlocks are total; and a successful reply
with a nil map at the head of the queue makes either pipeline panic
(modelled as none). -/
theorem pipelines_metadata_precondition (cfg : AgentConfig) (imageHash : String)
    (client : Nat → Except String EvaluateResponse)
    (tooManyErrs : Nat → String → Bool × Nat) :
    (∀ counter requests,
       (∀ r resp, client r = .ok resp → resp.Metadata ≠ none) →
       (processTransactions cfg imageHash client tooManyErrs counter requests).isSome = true ∧
       (processBlocks cfg imageHash client tooManyErrs counter requests).isSome = true) ∧
    (∀ counter r rest resp, client r = .ok resp → resp.Metadata = none →
       processTransactions cfg imageHash client tooManyErrs counter (r :: rest) = none ∧
       processBlocks cfg imageHash client tooManyErrs counter (r :: rest) = none) := by
  constructor
  · intro counter requests hgood
    exact ⟨processTransactions_isSome cfg imageHash client tooManyErrs hgood requests counter,
      processBlocks_isSome cfg imageHash client tooManyErrs hgood requests counter⟩
  · intro counter r rest resp hc hm
    constructor
    · simp only [processTransactions, hc, hm, mapAssign]
    · simp only [processBlocks, hc, hm, mapAssign]

/-- Witness for C9: with an always-successful client returning an empty
(allocated) map both pipelines complete on one request; with a client
returning a nil map both panic. -/
theorem pipelines_metadata_precondition_witness :
    ((processTransactions ⟨"0xa", "i", none, none⟩ "hash"
        (fun _ => .ok ⟨some []⟩) (fun c _ => (false, c)) 0 [0]).isSome = true ∧
     (processBlocks ⟨"0xa", "i", none, none⟩ "hash"
        (fun _ => .ok ⟨some []⟩) (fun c _ => (false, c)) 0 [0]).isSome = true) ∧
    (processTransactions ⟨"0xa", "i", none, none⟩ "hash"
        (fun _ => .ok ⟨none⟩) (fun c _ => (false, c)) 0 [0] = none ∧
     processBlocks ⟨"0xa", "i", none, none⟩ "hash"
        (fun _ => .ok ⟨none⟩) (fun c _ => (false, c)) 0 [0] = none) :=
  ⟨(pipelines_metadata_precondition ⟨"0xa", "i", none, none⟩ "hash"
      (fun _ => .ok ⟨some []⟩) (fun c _ => (false, c))).1 0 [0]
      (fun r resp h => by cases h; simp),
   (pipelines_metadata_precondition ⟨"0xa", "i", none, none⟩ "hash"
      (fun _ => .ok ⟨none⟩) (fun c _ => (false, c))).2 0 0 [] ⟨none⟩ rfl rfl⟩

/-- Helper: a successfully parsed alert-query request has Limit 100 when
the limit parameter is absent and the parsed limit value otherwise. -/
theorem parseQueryRequest_ok_limit (now : Int) (q : HttpQuery)
    (req : AlertQueryRequest) (h : parseQueryRequest now q = .ok req) :
    (q.limit = "" → req.Limit = 100) ∧
    (∀ l, goAtoi q.limit = some l → req.Limit = l) := by
  simp only [parseQueryRequest] at h
  cases h1 : getDateParam "startDate" q.startDate (now + defaultSinceDate) with
  | error e => rw [h1] at h; exact absurd h (by simp)
  | ok startDate =>
    rw [h1] at h
    cases h2 : getDateParam "endDate" q.endDate now with
    | error e => rw [h2] at h; exact absurd h (by simp)
    | ok endDate =>
      rw [h2] at h
      cases h3 : parseFilterCriteria q.extra with
      | error e => rw [h3] at h; exact absurd h (by simp)
      | ok filters =>
        rw [h3] at h
        dsimp only at h
        by_cases h4 : q.sort ≠ "asc" ∧ q.sort ≠ "desc" ∧ q.sort ≠ ""
        · rw [if_pos h4] at h; exact absurd h (by simp)
        · rw [if_neg h4] at h
          by_cases h5 : q.limit = ""
          · rw [if_pos h5] at h
            constructor
            · intro _
              cases h
              rfl
            · intro l hl
              rw [h5, show goAtoi "" = none from rfl] at hl
              exact Option.noConfusion hl
          · rw [if_neg h5] at h
            constructor
            · intro h6; exact absurd h6 h5
            · intro l hl
              rw [hl] at h
              dsimp only at h
              by_cases h7 : l > maxPageLimit
              · rw [if_pos h7] at h; exact absurd h (by simp)
              · rw [if_neg h7] at h
                cases h
                rfl

/-- Helper: a limit parameter parsing to a value above maxPageLimit makes
parseQueryRequest reject the request. -/
theorem parseQueryRequest_limit_exceeded (now : Int) (q : HttpQuery)
    (l : Int) (hl : goAtoi q.limit = some l) (hgt : l > maxPageLimit) :
    ∃ e, parseQueryRequest now q = .error e := by
  simp only [parseQueryRequest]
  cases h1 : getDateParam "startDate" q.startDate (now + defaultSinceDate) with
  | error e => exact ⟨_, rfl⟩
  | ok startDate =>
    cases h2 : getDateParam "endDate" q.endDate now with
    | error e => exact ⟨_, rfl⟩
    | ok endDate =>
      cases h3 : parseFilterCriteria q.extra with
      | error e => exact ⟨_, rfl⟩
      | ok filters =>
        dsimp only
        by_cases h4 : q.sort ≠ "asc" ∧ q.sort ≠ "desc" ∧ q.sort ≠ ""
        · rw [if_pos h4]; exact ⟨_, rfl⟩
        · rw [if_neg h4]
          have h5 : ¬ q.limit = "" := by
            intro h5
            rw [h5, show goAtoi "" = none from rfl] at hl
            exact Option.noConfusion hl
          rw [if_neg h5, hl]
          dsimp only
          rw [if_pos hgt]
          exact ⟨_, rfl⟩

/-- Claim C8: when the limit parameter is absent the parsed request keeps
the default Limit of 100; a limit parsing to more than 1000 makes
parseQueryRequest return an error (the request is rejected); a limit
parsing to at most 1000 becomes the request Limit. -/
theorem parseQueryRequest_limit_policy (now : Int) (q : HttpQuery) :
    (q.limit = "" → ∀ req, parseQueryRequest now q = .ok req → req.Limit = 100) ∧
    (∀ l, goAtoi q.limit = some l → l > 1000 →
       ∃ e, parseQueryRequest now q = .error e) ∧
    (∀ l req, goAtoi q.limit = some l → l ≤ 1000 →
       parseQueryRequest now q = .ok req → req.Limit = l) := by
  refine ⟨?_, ?_, ?_⟩
  · intro h5 req h
    exact (parseQueryRequest_ok_limit now q req h).1 h5
  · intro l hl hgt
    exact parseQueryRequest_limit_exceeded now q l hl hgt
  · intro l req hl _ h
    exact (parseQueryRequest_ok_limit now q req h).2 l hl

/-- Witness for C8: a request carrying limit 50 parses with Limit 50. -/
theorem parseQueryRequest_limit_policy_witness :
    ∃ req, parseQueryRequest 0 ⟨"", "", "50", "", "", []⟩ = .ok req ∧
      req.Limit = 50 := by
  have h : parseQueryRequest 0 ⟨"", "", "50", "", "", []⟩
      = .ok { StartTime := defaultSinceDate, EndTime := 0, PageToken := "",
              Limit := 50, Criteria := [], Reverse := false } := by rfl
  exact ⟨_, h, (parseQueryRequest_limit_policy 0 ⟨"", "", "50", "", "", []⟩).2.2
    50 _ rfl (by decide) h⟩

end Forta
